import Mathlib

/-!
Verification of the crosspost plugin's scheduled multi-target dispatch engine.

The definitions below are a shallow embedding of the TypeScript sources:
* `src/client.ts` (CrosspostClient, platform adapters, postToAll, schedulePost,
  executeScheduledPost, cancelScheduledPost),
* `src/utils/persistence.ts` (MemoryPersistenceAdapter, PersistentScheduler),
* `src/utils/retry.ts` (withRetry, RateLimiter),
* `src/utils/validation.ts` (validateScheduledAt).

Timestamps are naturals (milliseconds); JavaScript promises that can reject are
embedded as `Except`-valued functions; the nondeterministic network behaviour of
a platform adapter is an oracle passed in as a function argument.
-/

namespace Crosspost

/-- The `Platform` enum from `client.ts` (`platformSchema`). -/
inductive Platform
  | twitter
  | linkedin
  | facebook
  | instagram
  | mastodon
  | bluesky
deriving DecidableEq, Repr

/-- Render a platform id the way template literals in the source do. -/
def Platform.name : Platform → String
  | .twitter => "twitter"
  | .linkedin => "linkedin"
  | .facebook => "facebook"
  | .instagram => "instagram"
  | .mastodon => "mastodon"
  | .bluesky => "bluesky"

/-- `PostContent` from `client.ts`; media fields are opaque strings. -/
structure PostContent where
  text : String
  images : List String := []
  links : List String := []
  hashtags : List String := []
  mentions : List String := []
deriving DecidableEq, Repr

/-- `PostResult` from `client.ts` (`postResultSchema`). -/
structure PostResult where
  platform : Platform
  postId : String
  url : Option String := none
  success : Bool
  error : Option String := none
  timestamp : Nat
deriving DecidableEq, Repr

/-- The job status enum from `scheduledPostSchema`. -/
inductive Status
  | pending
  | posted
  | failed
  | cancelled
deriving DecidableEq, Repr

/-- `ScheduledPost` from `client.ts` (`scheduledPostSchema`). -/
structure ScheduledPost where
  id : String
  content : PostContent
  platforms : List Platform
  scheduledAt : Nat
  status : Status
  results : Option (List PostResult) := none
  createdAt : Nat
  updatedAt : Nat
deriving DecidableEq, Repr

/-- The part of `PlatformConfig` the dispatch engine inspects. -/
structure PlatformConfig where
  platform : Platform
  enabled : Bool
deriving DecidableEq, Repr

/-- The payload of one publish attempt, minus the platform stamp.  Every
return path of every adapter class builds its result with
`platform: this.platform`, so the platform field is supplied by the adapter,
not by the network. -/
structure AdapterOutcome where
  postId : String
  url : Option String := none
  success : Bool
  error : Option String := none
  timestamp : Nat
deriving DecidableEq, Repr

/-- A platform adapter: its fixed platform id and its (oracle) publish
behaviour.  Embeds the common shape of the six adapter classes in
`client.ts`. -/
structure PlatformAdapter where
  platform : Platform
  behavior : PostContent → AdapterOutcome

/-- `adapter.post(content)`: stamp the outcome with the adapter's own
platform, exactly as every return statement of the adapter classes does. -/
def PlatformAdapter.post (a : PlatformAdapter) (c : PostContent) : PostResult :=
  let o := a.behavior c
  { platform := a.platform, postId := o.postId, url := o.url,
    success := o.success, error := o.error, timestamp := o.timestamp }

/-- The `adapters` map of `CrosspostClient`. -/
def AdapterMap := Platform → Option PlatformAdapter

/-- The empty adapter map. -/
def AdapterMap.empty : AdapterMap := fun _ => none

/-- `this.adapters.set(p, a)`. -/
def AdapterMap.set (m : AdapterMap) (p : Platform) (a : PlatformAdapter) :
    AdapterMap :=
  fun q => if q = p then some a else m q

/-- The `switch (config.platform)` in `initializeAdapters`: each case
constructs the adapter class whose `platform` field is that same platform
(TwitterAdapter for 'twitter', and so on); the publish behaviour of the
constructed adapter is the given oracle. -/
def mkAdapter (config : PlatformConfig) (behavior : PostContent → AdapterOutcome) :
    PlatformAdapter :=
  { platform := config.platform, behavior := behavior }

/-- `CrosspostClient.initializeAdapters`: skip disabled configs, register the
constructed adapter under `config.platform`. -/
def initializeAdapters (configs : List (PlatformConfig × (PostContent → AdapterOutcome))) :
    AdapterMap :=
  configs.foldl
    (fun m cb => if cb.1.enabled then m.set cb.1.platform (mkAdapter cb.1 cb.2) else m)
    AdapterMap.empty

/-- `CrosspostClient.postToAll` (and, with the same deterministic result, the
parallel `CrosspostSDK.postToAll`): one result per requested platform, in
request order; a platform with no registered adapter yields a failed result
inline, otherwise the adapter publishes. -/
def postToAll (adapters : AdapterMap) (content : PostContent) (now : Nat)
    (targetPlatforms : List Platform) : List PostResult :=
  targetPlatforms.map fun p =>
    match adapters p with
    | none =>
        { platform := p, postId := "", success := false,
          error := some ("Platform " ++ p.name ++ " not configured"),
          timestamp := now }
    | some a => a.post content

/-- The `scheduledPosts` map of `CrosspostClient`, and equally the scheduled
posts map of `MemoryPersistenceAdapter`. -/
def Store := String → Option ScheduledPost

/-- The store with no posts. -/
def Store.empty : Store := fun _ => none

/-- `map.set(id, post)`. -/
def Store.set (s : Store) (id : String) (p : ScheduledPost) : Store :=
  fun q => if q = id then some p else s q

/-- `MemoryPersistenceAdapter.updateScheduledPost(post)`: writes under
`post.id`, and only when that key already exists. -/
def Store.update (s : Store) (p : ScheduledPost) : Store :=
  if (s p.id).isSome then s.set p.id p else s

/-- `CrosspostClient.schedulePost`: build a pending post (the generated id is
passed in) and store it; no validation is performed. -/
def schedulePostClient (store : Store) (newId : String) (content : PostContent)
    (platforms : List Platform) (scheduledAt : Nat) (now : Nat) :
    ScheduledPost × Store :=
  let post : ScheduledPost :=
    { id := newId, content := content, platforms := platforms,
      scheduledAt := scheduledAt, status := .pending, results := none,
      createdAt := now, updatedAt := now }
  (post, store.set newId post)

/-- `CrosspostClient.executeScheduledPost`.  The dispatch (the `postToAll`
call) is passed as an `Except`-valued oracle so both its normal return and a
thrown error are covered.  The surrounding async function never re-throws: the
catch block stores the failed post and returns it, so every branch is
`Except.ok`. -/
def executeScheduledPostClient (store : Store) (id : String)
    (dispatch : ScheduledPost → Except String (List PostResult)) (now : Nat) :
    Except String (Option ScheduledPost) × Store :=
  match store id with
  | none => (.ok none, store)
  | some post =>
    if post.status ≠ .pending then (.ok none, store)
    else
      match dispatch post with
      | .ok results =>
          let post' := { post with
            results := some results,
            status := if results.all (fun r => r.success) then .posted else .failed,
            updatedAt := now }
          (.ok (some post'), store.set id post')
      | .error _ =>
          let post' := { post with status := Status.failed, updatedAt := now }
          (.ok (some post'), store.set id post')

/-- `PersistentScheduler.executeScheduledPost`: same status rule, but persists
through `updateScheduledPost` and re-throws the dispatch error after
persisting. -/
def executeScheduledPostSched (store : Store) (id : String)
    (dispatch : ScheduledPost → Except String (List PostResult)) (now : Nat) :
    Except String (Option ScheduledPost) × Store :=
  match store id with
  | none => (.ok none, store)
  | some post =>
    if post.status ≠ .pending then (.ok none, store)
    else
      match dispatch post with
      | .ok results =>
          let post' := { post with
            results := some results,
            status := if results.all (fun r => r.success) then .posted else .failed,
            updatedAt := now }
          (.ok (some post'), store.update post')
      | .error e =>
          let post' := { post with status := Status.failed, updatedAt := now }
          (.error e, store.update post')

/-- `CrosspostClient.cancelScheduledPost`. -/
def cancelScheduledPostClient (store : Store) (id : String) (now : Nat) :
    Bool × Store :=
  match store id with
  | none => (false, store)
  | some post =>
    if post.status ≠ .pending then (false, store)
    else
      let post' := { post with status := Status.cancelled, updatedAt := now }
      (true, store.set id post')

/-- `PersistentScheduler.cancelScheduledPost`: identical guard, persisted
through `updateScheduledPost`. -/
def cancelScheduledPostSched (store : Store) (id : String) (now : Nat) :
    Bool × Store :=
  match store id with
  | none => (false, store)
  | some post =>
    if post.status ≠ .pending then (false, store)
    else
      let post' := { post with status := Status.cancelled, updatedAt := now }
      (true, store.update post')

/-- `validateScheduledAt` from `validation.ts`: rejects timestamps not in the
future and timestamps more than one year ahead. -/
def validateScheduledAt (scheduledAt : Nat) (now : Nat) : Except String Unit :=
  if scheduledAt ≤ now then
    .error "Scheduled time must be in the future"
  else if now + 365 * 24 * 60 * 60 * 1000 < scheduledAt then
    .error "Cannot schedule posts more than 1 year in advance"
  else
    .ok ()

/-- The shape of the error values the default retry classifier in `retry.ts`
inspects (`error?.code`, `error?.status`). -/
structure JsError where
  code : Option String := none
  status : Option Int := none
deriving DecidableEq, Repr

/-- The default `retryCondition` of `DEFAULT_RETRY_OPTIONS`: retry on
NETWORK_ERROR, on status at least 500, and on status 429; in JavaScript an
absent status compares false against both tests. -/
def defaultRetryCondition (e : JsError) : Bool :=
  if e.code = some "NETWORK_ERROR" then true
  else
    match e.status with
    | some s => if 500 ≤ s then true else if s = 429 then true else false
    | none => false

/-- `RetryOptions` from `retry.ts`, parametric in the error type; the
classifier is optional exactly as in the source
(`config.retryCondition && !config.retryCondition(error)`). -/
structure RetryOptions (E : Type) where
  maxRetries : Nat
  baseDelay : Nat
  maxDelay : Nat
  backoffFactor : Nat
  retryCondition : Option (E → Bool) := none

/-- `DEFAULT_RETRY_OPTIONS` from `retry.ts`. -/
def DEFAULT_RETRY_OPTIONS : RetryOptions JsError :=
  { maxRetries := 3, baseDelay := 1000, maxDelay := 30000, backoffFactor := 2,
    retryCondition := some defaultRetryCondition }

/-- The backoff delay computed at a given attempt:
`Math.min(baseDelay * backoffFactor ** attempt, maxDelay)`. -/
def retryDelay {E : Type} (cfg : RetryOptions E) (attempt : Nat) : Nat :=
  min (cfg.baseDelay * cfg.backoffFactor ^ attempt) cfg.maxDelay

/-- With an absent classifier the loop in `withRetry` never breaks early;
otherwise it breaks when the classifier says no. -/
def isRetryable {E : Type} (cfg : RetryOptions E) (e : E) : Bool :=
  match cfg.retryCondition with
  | some rc => rc e
  | none => true

/-- An execution trace of `withRetry`: the propagated result, the number of
times the operation was invoked, and the backoff delays waited in order. -/
structure RetryTrace (E T : Type) where
  result : Except E T
  calls : Nat
  delays : List Nat
deriving Repr

/-- The `for (let attempt = 0; attempt <= maxRetries; attempt++)` loop of
`withRetry`.  `op k` is the outcome of the k-th invocation of the operation
(0-based); `remaining` is `maxRetries - attempt`, so `remaining = 0` is the
last pass, where the `attempt === config.maxRetries` check breaks out of the
loop on failure before consulting the classifier or computing a delay. -/
def withRetryGo {E T : Type} (cfg : RetryOptions E) (op : Nat → Except E T) :
    Nat → Nat → RetryTrace E T
  | attempt, 0 =>
    match op attempt with
    | .ok v => ⟨.ok v, 1, []⟩
    | .error e => ⟨.error e, 1, []⟩
  | attempt, r + 1 =>
    match op attempt with
    | .ok v => ⟨.ok v, 1, []⟩
    | .error e =>
      if isRetryable cfg e then
        let t := withRetryGo cfg op (attempt + 1) r
        ⟨t.result, t.calls + 1, retryDelay cfg attempt :: t.delays⟩
      else ⟨.error e, 1, []⟩

/-- `withRetry(operation, options)` from `retry.ts`, with the trace of calls
and delays made observable. -/
def withRetry {E T : Type} (cfg : RetryOptions E) (op : Nat → Except E T) :
    RetryTrace E T :=
  withRetryGo cfg op 0 cfg.maxRetries

/-- The state of a `RateLimiter` from `retry.ts`: the constructor stores its
two arguments unconditionally and starts with an empty timestamp list. -/
structure RateLimiterState where
  maxRequests : Nat
  windowMs : Nat
  requests : List Nat := []
deriving DecidableEq, Repr

/-- `new RateLimiter(maxRequests, windowMs)`: no validation of any kind. -/
def RateLimiterState.create (maxRequests windowMs : Nat) : RateLimiterState :=
  { maxRequests := maxRequests, windowMs := windowMs, requests := [] }

/-- The body of `RateLimiter.acquire`, with the tail `return this.acquire()`
after the `setTimeout` wait turned into fuel-indexed recursion at the advanced
clock.  Returns the completion time of the admission and the new timestamp
list.  When the pruned list is empty but already at the limit (only possible
with `maxRequests = 0`), `this.requests[0]` is `undefined` in the source, the
computed wait is `NaN`, `NaN > 0` is false, and the request is recorded — the
nil match arm mirrors that.  The fuel argument only bounds the recursion
depth; `acquire` supplies enough fuel that the exhausted-fuel equation (which
just prunes) is never reached, because every wait ends past the expiry of the
then-oldest recorded timestamp and so strictly shrinks the list. -/
def acquireGo (m w : Nat) : Nat → Nat → List Nat → Nat × List Nat
  | 0, now, reqs =>
    (now, reqs.filter fun t => now - t < w)
  | fuel + 1, now, reqs =>
    let pruned := reqs.filter fun t => now - t < w
    if m ≤ pruned.length then
      match pruned with
      | [] => (now, pruned ++ [now])
      | oldest :: rest =>
        if 0 < w - (now - oldest) then
          acquireGo m w fuel (now + (w - (now - oldest))) (oldest :: rest)
        else (now, pruned ++ [now])
    else (now, pruned ++ [now])

/-- `RateLimiter.acquire()` invoked when the clock reads `now`; the fuel
`requests.length + 1` covers every possible chain of waits, since each wait
ends past the expiry of the then-oldest recorded timestamp. -/
def RateLimiterState.acquire (s : RateLimiterState) (now : Nat) :
    Nat × RateLimiterState :=
  let r := acquireGo s.maxRequests s.windowMs (s.requests.length + 1) now s.requests
  (r.1, { s with requests := r.2 })

/-- Issue `n` acquisitions back to back: each is issued the moment the
previous one completes (the burst starts at `now`).  Returns the completion
times in order, the completion time of the last, and the final state. -/
def runAcquires (s : RateLimiterState) (now : Nat) :
    Nat → List Nat × Nat × RateLimiterState
  | 0 => ([], now, s)
  | n + 1 =>
    let a := s.acquire now
    let r := runAcquires a.2 a.1 n
    (a.1 :: r.1, r.2.1, r.2.2)

/-! ### Concrete fixtures used by witnesses and counterexamples -/

/-- A small content value. -/
def exContent : PostContent := { text := "hi" }

/-- A pending scheduled post. -/
def exPost : ScheduledPost :=
  { id := "p1", content := exContent, platforms := [.twitter],
    scheduledAt := 50, status := .pending, results := none,
    createdAt := 10, updatedAt := 10 }

/-- A store holding just `exPost`. -/
def exStore : Store := Store.empty.set "p1" exPost

/-! ### C1: final status of a completed execution -/

/-- C1: for every completed job execution — `executeScheduledPost` (client or
persistent-scheduler variant) on a pending job whose dispatch returns a result
list — the final status is `posted` iff every result succeeded, otherwise
`failed`, and `updatedAt` is set to the execution time; the final post is
persisted. -/
theorem execute_status_posted_iff_all_success
    (store : Store) (id : String)
    (dispatch : ScheduledPost → Except String (List PostResult)) (now : Nat)
    (post : ScheduledPost) (results : List PostResult)
    (hget : store id = some post) (hpend : post.status = .pending)
    (hid : post.id = id) (hdisp : dispatch post = .ok results) :
    (∃ post',
      (executeScheduledPostClient store id dispatch now).1 = .ok (some post') ∧
      (executeScheduledPostClient store id dispatch now).2 id = some post' ∧
      (post'.status = .posted ↔ ∀ r ∈ results, r.success = true) ∧
      (post'.status = .failed ↔ ¬ ∀ r ∈ results, r.success = true) ∧
      post'.updatedAt = now) ∧
    (∃ post',
      (executeScheduledPostSched store id dispatch now).1 = .ok (some post') ∧
      (executeScheduledPostSched store id dispatch now).2 id = some post' ∧
      (post'.status = .posted ↔ ∀ r ∈ results, r.success = true) ∧
      (post'.status = .failed ↔ ¬ ∀ r ∈ results, r.success = true) ∧
      post'.updatedAt = now) := by
  have hstep : ∀ st : Status,
      (st = (if results.all (fun r => r.success) then Status.posted else Status.failed)) →
      (st = .posted ↔ ∀ r ∈ results, r.success = true) ∧
      (st = .failed ↔ ¬ ∀ r ∈ results, r.success = true) := by
    intro st hst
    subst hst
    by_cases h : results.all (fun r => r.success) = true
    · rw [if_pos h]
      have hall := List.all_eq_true.mp h
      exact ⟨⟨fun _ => hall, fun _ => rfl⟩,
        ⟨fun hpf => Status.noConfusion hpf, fun hn => absurd hall hn⟩⟩
    · rw [if_neg h]
      have hnall : ¬ ∀ r ∈ results, r.success = true :=
        fun hall => h (List.all_eq_true.mpr hall)
      exact ⟨⟨fun hpf => Status.noConfusion hpf, fun hall => absurd hall hnall⟩,
        ⟨fun _ => hnall, fun _ => rfl⟩⟩
  constructor
  · refine ⟨{ post with
        results := some results,
        status := if results.all (fun r => r.success) then .posted else .failed,
        updatedAt := now }, ?_, ?_, ?_⟩
    · simp [executeScheduledPostClient, hget, hpend, hdisp]
    · simp [executeScheduledPostClient, hget, hpend, hdisp, Store.set]
    · exact ⟨(hstep _ rfl).1, (hstep _ rfl).2, rfl⟩
  · refine ⟨{ post with
        results := some results,
        status := if results.all (fun r => r.success) then .posted else .failed,
        updatedAt := now }, ?_, ?_, ?_⟩
    · simp [executeScheduledPostSched, hget, hpend, hdisp]
    · simp [executeScheduledPostSched, hget, hpend, hdisp, Store.update, Store.set,
        hid]
    · exact ⟨(hstep _ rfl).1, (hstep _ rfl).2, rfl⟩

/-- Witness for C1 at a concrete pending job whose single dispatch result
succeeds. -/
theorem execute_status_posted_iff_all_success_witness :
    (∃ post',
      (executeScheduledPostClient exStore "p1"
          (fun _ => .ok [{ platform := .twitter, postId := "x", success := true,
                           timestamp := 9 }]) 60).1 = .ok (some post') ∧
      (executeScheduledPostClient exStore "p1"
          (fun _ => .ok [{ platform := .twitter, postId := "x", success := true,
                           timestamp := 9 }]) 60).2 "p1" = some post' ∧
      (post'.status = .posted ↔
        ∀ r ∈ [({ platform := .twitter, postId := "x", success := true,
                  timestamp := 9 } : PostResult)], r.success = true) ∧
      (post'.status = .failed ↔
        ¬ ∀ r ∈ [({ platform := .twitter, postId := "x", success := true,
                    timestamp := 9 } : PostResult)], r.success = true) ∧
      post'.updatedAt = 60) ∧
    (∃ post',
      (executeScheduledPostSched exStore "p1"
          (fun _ => .ok [{ platform := .twitter, postId := "x", success := true,
                           timestamp := 9 }]) 60).1 = .ok (some post') ∧
      (executeScheduledPostSched exStore "p1"
          (fun _ => .ok [{ platform := .twitter, postId := "x", success := true,
                           timestamp := 9 }]) 60).2 "p1" = some post' ∧
      (post'.status = .posted ↔
        ∀ r ∈ [({ platform := .twitter, postId := "x", success := true,
                  timestamp := 9 } : PostResult)], r.success = true) ∧
      (post'.status = .failed ↔
        ¬ ∀ r ∈ [({ platform := .twitter, postId := "x", success := true,
                    timestamp := 9 } : PostResult)], r.success = true) ∧
      post'.updatedAt = 60) :=
  execute_status_posted_iff_all_success exStore "p1" _ 60 exPost _
    (by decide) (by decide) (by decide) rfl

/-! ### C6: cancellation guard -/

/-- C6: `cancelScheduledPost(id)` (client and persistent-scheduler variant)
returns true and rewrites the post to status `cancelled` with `updatedAt = now`
exactly when the post exists and is `pending`; for an absent post or a post in
any other status it returns false and leaves the store untouched. -/
theorem cancel_pending_guard (store : Store) (id : String) (now : Nat) :
    (∀ post, store id = some post → post.status = .pending →
      cancelScheduledPostClient store id now =
        (true, store.set id { post with status := .cancelled, updatedAt := now }) ∧
      cancelScheduledPostSched store id now =
        (true, store.update { post with status := .cancelled, updatedAt := now })) ∧
    (store id = none →
      cancelScheduledPostClient store id now = (false, store) ∧
      cancelScheduledPostSched store id now = (false, store)) ∧
    (∀ post, store id = some post → post.status ≠ .pending →
      cancelScheduledPostClient store id now = (false, store) ∧
      cancelScheduledPostSched store id now = (false, store)) := by
  refine ⟨?_, ?_, ?_⟩
  · intro post hget hpend
    constructor
    · simp [cancelScheduledPostClient, hget, hpend]
    · simp [cancelScheduledPostSched, hget, hpend]
  · intro hnone
    constructor
    · simp [cancelScheduledPostClient, hnone]
    · simp [cancelScheduledPostSched, hnone]
  · intro post hget hnp
    constructor
    · simp [cancelScheduledPostClient, hget, hnp]
    · simp [cancelScheduledPostSched, hget, hnp]

/-- Witness for C6: cancelling the concrete pending post succeeds, and
cancelling a missing id fails. -/
theorem cancel_pending_guard_witness :
    (cancelScheduledPostClient exStore "p1" 70 =
      (true, exStore.set "p1" { exPost with status := .cancelled, updatedAt := 70 }) ∧
     cancelScheduledPostSched exStore "p1" 70 =
      (true, exStore.update { exPost with status := .cancelled, updatedAt := 70 })) ∧
    (cancelScheduledPostClient exStore "zz" 70 = (false, exStore) ∧
     cancelScheduledPostSched exStore "zz" 70 = (false, exStore)) :=
  ⟨(cancel_pending_guard exStore "p1" 70).1 exPost (by decide) (by decide),
   (cancel_pending_guard exStore "zz" 70).2.1 (by decide)⟩

/-! ### C10: cancellation frame -/

/-- C10: a successful cancellation modifies only `status` and `updatedAt`:
all other fields of the post are preserved and every other stored post is
untouched, in both the client and the persistent-scheduler variant. -/
theorem cancel_frame_preservation (store : Store) (id : String) (now : Nat)
    (post : ScheduledPost) (hget : store id = some post)
    (hpend : post.status = .pending) (hid : post.id = id) :
    ((cancelScheduledPostClient store id now).1 = true ∧
     (∀ j, j ≠ id → (cancelScheduledPostClient store id now).2 j = store j) ∧
     ∃ post', (cancelScheduledPostClient store id now).2 id = some post' ∧
       post'.id = post.id ∧ post'.content = post.content ∧
       post'.platforms = post.platforms ∧ post'.scheduledAt = post.scheduledAt ∧
       post'.createdAt = post.createdAt ∧ post'.results = post.results ∧
       post'.status = .cancelled ∧ post'.updatedAt = now) ∧
    ((cancelScheduledPostSched store id now).1 = true ∧
     (∀ j, j ≠ id → (cancelScheduledPostSched store id now).2 j = store j) ∧
     ∃ post', (cancelScheduledPostSched store id now).2 id = some post' ∧
       post'.id = post.id ∧ post'.content = post.content ∧
       post'.platforms = post.platforms ∧ post'.scheduledAt = post.scheduledAt ∧
       post'.createdAt = post.createdAt ∧ post'.results = post.results ∧
       post'.status = .cancelled ∧ post'.updatedAt = now) := by
  constructor
  · refine ⟨?_, ?_, ?_⟩
    · simp [cancelScheduledPostClient, hget, hpend]
    · intro j hj
      simp [cancelScheduledPostClient, hget, hpend, Store.set, hj]
    · refine ⟨{ post with status := .cancelled, updatedAt := now }, ?_,
        rfl, rfl, rfl, rfl, rfl, rfl, rfl, rfl⟩
      simp [cancelScheduledPostClient, hget, hpend, Store.set]
  · refine ⟨?_, ?_, ?_⟩
    · simp [cancelScheduledPostSched, hget, hpend]
    · intro j hj
      simp [cancelScheduledPostSched, hget, hpend, Store.update, Store.set, hid, hj]
    · refine ⟨{ post with status := .cancelled, updatedAt := now }, ?_,
        rfl, rfl, rfl, rfl, rfl, rfl, rfl, rfl⟩
      simp [cancelScheduledPostSched, hget, hpend, Store.update, Store.set, hid]

/-- Witness for C10 at the concrete store: the cancelled post keeps every
field except status and updatedAt. -/
theorem cancel_frame_preservation_witness :
    ((cancelScheduledPostClient exStore "p1" 70).1 = true ∧
     (∀ j, j ≠ "p1" → (cancelScheduledPostClient exStore "p1" 70).2 j = exStore j) ∧
     ∃ post', (cancelScheduledPostClient exStore "p1" 70).2 "p1" = some post' ∧
       post'.id = exPost.id ∧ post'.content = exPost.content ∧
       post'.platforms = exPost.platforms ∧ post'.scheduledAt = exPost.scheduledAt ∧
       post'.createdAt = exPost.createdAt ∧ post'.results = exPost.results ∧
       post'.status = .cancelled ∧ post'.updatedAt = 70) ∧
    ((cancelScheduledPostSched exStore "p1" 70).1 = true ∧
     (∀ j, j ≠ "p1" → (cancelScheduledPostSched exStore "p1" 70).2 j = exStore j) ∧
     ∃ post', (cancelScheduledPostSched exStore "p1" 70).2 "p1" = some post' ∧
       post'.id = exPost.id ∧ post'.content = exPost.content ∧
       post'.platforms = exPost.platforms ∧ post'.scheduledAt = exPost.scheduledAt ∧
       post'.createdAt = exPost.createdAt ∧ post'.results = exPost.results ∧
       post'.status = .cancelled ∧ post'.updatedAt = 70) :=
  cancel_frame_preservation exStore "p1" 70 exPost (by decide) (by decide) (by decide)

/-! ### C7: behaviour when the dispatch call itself throws -/

/-- Counterexample to C7 as stated: when the dispatch throws on a pending job,
`CrosspostClient.executeScheduledPost` does NOT re-raise the error — it
returns the failed post normally (`Except.ok`), so the claim that the executor
re-raises to the caller is false for this executor. -/
theorem client_execute_swallows_dispatch_error :
    (executeScheduledPostClient exStore "p1" (fun _ => .error "boom") 100).1 =
      .ok (some { exPost with status := .failed, updatedAt := 100 }) ∧
    (executeScheduledPostClient exStore "p1" (fun _ => .error "boom") 100).1 ≠
      .error "boom" := by
  constructor
  · rfl
  · exact fun h => nomatch h

/-- C7 amended: on a dispatch error against a pending job, the
persistent-scheduler executor persists status `failed` (results untouched,
hence still absent) and re-raises the error, while the client executor
persists the same failed state but returns the failed post to the caller
without re-raising. -/
theorem execute_dispatch_error_behavior (store : Store) (id : String)
    (dispatch : ScheduledPost → Except String (List PostResult)) (now : Nat)
    (post : ScheduledPost) (e : String)
    (hget : store id = some post) (hpend : post.status = .pending)
    (hres : post.results = none) (hid : post.id = id)
    (hdisp : dispatch post = .error e) :
    (executeScheduledPostSched store id dispatch now).1 = .error e ∧
    (executeScheduledPostSched store id dispatch now).2 id =
      some { post with status := .failed, updatedAt := now } ∧
    (executeScheduledPostClient store id dispatch now).1 =
      .ok (some { post with status := .failed, updatedAt := now }) ∧
    (executeScheduledPostClient store id dispatch now).2 id =
      some { post with status := .failed, updatedAt := now } ∧
    ({ post with status := Status.failed, updatedAt := now } : ScheduledPost).results
      = none := by
  refine ⟨?_, ?_, ?_, ?_, hres⟩
  · simp [executeScheduledPostSched, hget, hpend, hdisp]
  · simp [executeScheduledPostSched, hget, hpend, hdisp, Store.update, Store.set, hid]
  · simp [executeScheduledPostClient, hget, hpend, hdisp]
  · simp [executeScheduledPostClient, hget, hpend, hdisp, Store.set]

/-- Witness for the amended C7 at the concrete pending job. -/
theorem execute_dispatch_error_behavior_witness :
    (executeScheduledPostSched exStore "p1" (fun _ => .error "boom") 100).1 =
      .error "boom" ∧
    (executeScheduledPostSched exStore "p1" (fun _ => .error "boom") 100).2 "p1" =
      some { exPost with status := .failed, updatedAt := 100 } ∧
    (executeScheduledPostClient exStore "p1" (fun _ => .error "boom") 100).1 =
      .ok (some { exPost with status := .failed, updatedAt := 100 }) ∧
    (executeScheduledPostClient exStore "p1" (fun _ => .error "boom") 100).2 "p1" =
      some { exPost with status := .failed, updatedAt := 100 } ∧
    ({ exPost with status := Status.failed, updatedAt := 100 } : ScheduledPost).results
      = none :=
  execute_dispatch_error_behavior exStore "p1" _ 100 exPost "boom"
    (by decide) (by decide) (by decide) (by decide) rfl

/-! ### C8: absence of configuration validation -/

/-- Counterexample to C8 as stated: neither fail-fast check exists in the
code.  `new RateLimiter(0, 1000)` constructs a normal limiter state (no
configuration error is raised; even `acquire` proceeds and records the
request, through the `undefined`-oldest branch), and `postToAll` with an
explicitly empty target list returns an empty result list instead of being
rejected. -/
theorem no_configuration_validation_cex :
    RateLimiterState.create 0 1000 =
      { maxRequests := 0, windowMs := 1000, requests := [] } ∧
    (RateLimiterState.create 0 1000).acquire 7 =
      (7, { maxRequests := 0, windowMs := 1000, requests := [7] }) ∧
    postToAll (initializeAdapters []) exContent 0 [] = [] := by
  refine ⟨rfl, ?_, rfl⟩
  decide

/-- C8 amended: the code performs no configuration validation — the
`RateLimiter` constructor stores any `maxRequests` (including 0) without
raising, and dispatching to an explicitly empty target list returns an empty
result list rather than failing. -/
theorem no_configuration_validation (m w : Nat) (adapters : AdapterMap)
    (content : PostContent) (now : Nat) :
    RateLimiterState.create m w =
      { maxRequests := m, windowMs := w, requests := [] } ∧
    postToAll adapters content now [] = [] :=
  ⟨rfl, rfl⟩

/-! ### C9: scheduling with a past timestamp -/

/-- Counterexample to C9 as stated: `CrosspostClient.schedulePost` performs no
timestamp validation, so a schedule request with `scheduledAt = 5 ≤ now = 100`
creates and stores a pending job instead of being rejected. -/
theorem schedulePost_accepts_past_cex :
    5 ≤ 100 ∧
    (schedulePostClient Store.empty "s1" exContent [.twitter] 5 100).1.status =
      .pending ∧
    (schedulePostClient Store.empty "s1" exContent [.twitter] 5 100).2 "s1" =
      some (schedulePostClient Store.empty "s1" exContent [.twitter] 5 100).1 := by
  refine ⟨by decide, rfl, by decide⟩

/-- C9 amended: the standalone validator `validateScheduledAt` does reject
`scheduledAt ≤ now` (and timestamps more than one year ahead) with a
validation error, but `CrosspostClient.schedulePost` never invokes it: for
every timestamp, including past ones, it creates and stores a pending job. -/
theorem schedulePost_no_validation (scheduledAt now : Nat) :
    (scheduledAt ≤ now →
      validateScheduledAt scheduledAt now =
        .error "Scheduled time must be in the future") ∧
    (now < scheduledAt → scheduledAt ≤ now + 365 * 24 * 60 * 60 * 1000 →
      validateScheduledAt scheduledAt now = .ok ()) ∧
    (∀ store newId content platforms,
      (schedulePostClient store newId content platforms scheduledAt now).1.status =
        .pending ∧
      (schedulePostClient store newId content platforms scheduledAt now).2 newId =
        some (schedulePostClient store newId content platforms scheduledAt now).1) := by
  refine ⟨?_, ?_, ?_⟩
  · intro h
    simp [validateScheduledAt, h]
  · intro h1 h2
    rw [validateScheduledAt, if_neg (by omega), if_neg (by omega)]
  · intro store newId content platforms
    exact ⟨rfl, by simp [schedulePostClient, Store.set]⟩

/-- Witness for the amended C9: a past timestamp is rejected by the validator
yet accepted by `schedulePost`. -/
theorem schedulePost_no_validation_witness :
    validateScheduledAt 5 100 = .error "Scheduled time must be in the future" ∧
    (schedulePostClient Store.empty "s2" exContent [.twitter] 5 100).1.status =
      .pending ∧
    (schedulePostClient Store.empty "s2" exContent [.twitter] 5 100).2 "s2" =
      some (schedulePostClient Store.empty "s2" exContent [.twitter] 5 100).1 :=
  ⟨(schedulePost_no_validation 5 100).1 (by decide),
   (schedulePost_no_validation 5 100).2.2 Store.empty "s2" exContent [.twitter]⟩

/-! ### C3 and C4: withRetry attempt counting and backoff delays -/

/-- If the operation fails retryably for `n` attempts starting at `attempt`
and then succeeds, the loop returns the success and makes `n + 1` calls. -/
theorem withRetryGo_ok {E T : Type} (cfg : RetryOptions E) (op : Nat → Except E T)
    (v : T) :
    ∀ n a r, n ≤ r →
      (∀ k, k < n → ∃ e, op (a + k) = .error e ∧ isRetryable cfg e = true) →
      op (a + n) = .ok v →
      (withRetryGo cfg op a r).result = .ok v ∧
      (withRetryGo cfg op a r).calls = n + 1 := by
  intro n
  induction n with
  | zero =>
    intro a r _ _ hok
    rw [Nat.add_zero] at hok
    cases r <;> simp [withRetryGo, hok]
  | succ n ih =>
    intro a r hle hfail hok
    obtain ⟨e, he, hre⟩ := hfail 0 (Nat.succ_pos n)
    rw [Nat.add_zero] at he
    match r, hle with
    | r' + 1, _ =>
      have ih' := ih (a + 1) r' (by omega)
        (fun k hk => by
          have h := hfail (k + 1) (by omega)
          rwa [show a + (k + 1) = a + 1 + k by omega] at h)
        (by rw [show a + 1 + n = a + (n + 1) by omega]; exact hok)
      simp only [withRetryGo, he, hre, if_true]
      exact ⟨ih'.1, by rw [ih'.2]⟩

/-- The loop never makes more than `remaining + 1` calls. -/
theorem withRetryGo_calls_le {E T : Type} (cfg : RetryOptions E)
    (op : Nat → Except E T) :
    ∀ r a, (withRetryGo cfg op a r).calls ≤ r + 1 := by
  intro r
  induction r with
  | zero =>
    intro a
    cases hop : op a <;> simp [withRetryGo, hop]
  | succ r ih =>
    intro a
    cases hop : op a with
    | ok v => simp [withRetryGo, hop]
    | error e =>
      by_cases hre : isRetryable cfg e = true
      · simp only [withRetryGo, hop, hre, if_true]
        have := ih (a + 1)
        omega
      · rw [Bool.not_eq_true] at hre
        simp [withRetryGo, hop, hre]

/-- The i-th recorded delay of the loop started at `attempt = a` is the
backoff delay of attempt `a + i`. -/
theorem withRetryGo_delays {E T : Type} (cfg : RetryOptions E)
    (op : Nat → Except E T) :
    ∀ r a i, i < (withRetryGo cfg op a r).delays.length →
      (withRetryGo cfg op a r).delays.getD i 0 = retryDelay cfg (a + i) := by
  intro r
  induction r with
  | zero =>
    intro a i hi
    cases hop : op a <;> simp [withRetryGo, hop] at hi
  | succ r ih =>
    intro a i hi
    cases hop : op a with
    | ok v => simp [withRetryGo, hop] at hi
    | error e =>
      by_cases hre : isRetryable cfg e = true
      · simp only [withRetryGo, hop, hre, if_true] at hi ⊢
        cases i with
        | zero => simp
        | succ i =>
          simp only [List.getD_cons_succ]
          rw [ih (a + 1) i (by simpa using hi),
            show a + 1 + i = a + (i + 1) by omega]
      · rw [Bool.not_eq_true] at hre
        simp [withRetryGo, hop, hre] at hi

/-- Every recorded delay is capped by `maxDelay`. -/
theorem withRetryGo_delays_le {E T : Type} (cfg : RetryOptions E)
    (op : Nat → Except E T) :
    ∀ r a, ∀ d ∈ (withRetryGo cfg op a r).delays, d ≤ cfg.maxDelay := by
  intro r
  induction r with
  | zero =>
    intro a d hd
    cases hop : op a <;> simp [withRetryGo, hop] at hd
  | succ r ih =>
    intro a d hd
    cases hop : op a with
    | ok v => simp [withRetryGo, hop] at hd
    | error e =>
      by_cases hre : isRetryable cfg e = true
      · simp only [withRetryGo, hop, hre, if_true, List.mem_cons] at hd
        rcases hd with hd | hd
        · rw [hd]; exact Nat.min_le_right _ _
        · exact ih (a + 1) d hd
      · rw [Bool.not_eq_true] at hre
        simp [withRetryGo, hop, hre] at hd

/-- C3: if the operation fails `n < maxRetries` times with retryable errors
and then succeeds, `withRetry` returns the success value after exactly `n + 1`
invocations; if the first call fails with a non-retryable error, the operation
is invoked exactly once and that error is propagated; and in every case the
operation is invoked at most `maxRetries + 1` times. -/
theorem withRetry_attempt_counts {E T : Type} (cfg : RetryOptions E)
    (op : Nat → Except E T) :
    (∀ n v, n < cfg.maxRetries →
      (∀ k, k < n → ∃ e, op k = .error e ∧ isRetryable cfg e = true) →
      op n = .ok v →
      (withRetry cfg op).result = .ok v ∧ (withRetry cfg op).calls = n + 1) ∧
    (∀ e, op 0 = .error e → isRetryable cfg e = false →
      (withRetry cfg op).result = .error e ∧ (withRetry cfg op).calls = 1) ∧
    (withRetry cfg op).calls ≤ cfg.maxRetries + 1 := by
  refine ⟨?_, ?_, withRetryGo_calls_le cfg op cfg.maxRetries 0⟩
  · intro n v hn hfail hok
    exact withRetryGo_ok cfg op v n 0 cfg.maxRetries (by omega)
      (fun k hk => by simpa using hfail k hk) (by simpa using hok)
  · intro e h0 hre
    unfold withRetry
    cases hmr : cfg.maxRetries with
    | zero => simp [withRetryGo, h0]
    | succ m => simp [withRetryGo, h0, hre]

/-- A concrete operation failing twice with HTTP 500 and then succeeding. -/
def exRetryOp : Nat → Except JsError Nat :=
  fun k => if k < 2 then .error { status := some 500 } else .ok 42

/-- A concrete operation always failing with HTTP 400 (non-retryable). -/
def exRetryOp400 : Nat → Except JsError Nat :=
  fun _ => .error { status := some 400 }

/-- Witness for C3 under the default options: two 500s then success gives
three calls; an immediate 400 gives one call and the 400 propagated. -/
theorem withRetry_attempt_counts_witness :
    ((withRetry DEFAULT_RETRY_OPTIONS exRetryOp).result = .ok 42 ∧
     (withRetry DEFAULT_RETRY_OPTIONS exRetryOp).calls = 2 + 1) ∧
    ((withRetry DEFAULT_RETRY_OPTIONS exRetryOp400).result =
        .error { code := none, status := some 400 } ∧
     (withRetry DEFAULT_RETRY_OPTIONS exRetryOp400).calls = 1) :=
  ⟨(withRetry_attempt_counts DEFAULT_RETRY_OPTIONS exRetryOp).1 2 42 (by decide)
      (fun k hk => ⟨{ code := none, status := some 500 },
        by unfold exRetryOp; rw [if_pos hk], by decide⟩) rfl,
   (withRetry_attempt_counts DEFAULT_RETRY_OPTIONS exRetryOp400).2.1
      { code := none, status := some 400 } rfl (by decide)⟩

/-- C4: the delay recorded at the k-th scheduled retry is
`min(baseDelay * backoffFactor ^ k, maxDelay)`, so no delay ever exceeds
`maxDelay`; with `maxRetries = 0` no delay is ever computed. -/
theorem withRetry_backoff_delays {E T : Type} (cfg : RetryOptions E)
    (op : Nat → Except E T) :
    (∀ i, i < (withRetry cfg op).delays.length →
      (withRetry cfg op).delays.getD i 0 =
        min (cfg.baseDelay * cfg.backoffFactor ^ i) cfg.maxDelay) ∧
    (∀ d ∈ (withRetry cfg op).delays, d ≤ cfg.maxDelay) ∧
    (cfg.maxRetries = 0 → (withRetry cfg op).delays = []) := by
  refine ⟨?_, withRetryGo_delays_le cfg op cfg.maxRetries 0, ?_⟩
  · intro i hi
    have h := withRetryGo_delays cfg op cfg.maxRetries 0 i hi
    rw [Nat.zero_add] at h
    exact h
  · intro h0
    unfold withRetry
    rw [h0]
    cases hop : op 0 <;> simp [withRetryGo, hop]

/-- Witness for C4: the concrete run records delays 1000 and 2000, both at
most `maxDelay`, and a zero-retry configuration records none. -/
theorem withRetry_backoff_delays_witness :
    (withRetry DEFAULT_RETRY_OPTIONS exRetryOp).delays.getD 0 0 =
      min (1000 * 2 ^ 0) 30000 ∧
    (withRetry DEFAULT_RETRY_OPTIONS exRetryOp).delays.getD 1 0 =
      min (1000 * 2 ^ 1) 30000 ∧
    1000 ≤ 30000 ∧
    (withRetry { DEFAULT_RETRY_OPTIONS with maxRetries := 0 } exRetryOp).delays
      = [] :=
  ⟨(withRetry_backoff_delays DEFAULT_RETRY_OPTIONS exRetryOp).1 0 (by decide),
   (withRetry_backoff_delays DEFAULT_RETRY_OPTIONS exRetryOp).1 1 (by decide),
   (withRetry_backoff_delays DEFAULT_RETRY_OPTIONS exRetryOp).2.1 1000 (by decide),
   (withRetry_backoff_delays { DEFAULT_RETRY_OPTIONS with maxRetries := 0 }
      exRetryOp).2.2 rfl⟩

/-! ### C5: rate limiter burst behaviour -/

/-- Pruning a same-instant burst removes nothing while the window is
positive. -/
theorem filter_replicate_window (w j t0 : Nat) (hw : 0 < w) :
    (List.replicate j t0).filter (fun t => t0 - t < w) = List.replicate j t0 :=
  List.filter_eq_self.mpr fun a ha => by
    rw [List.eq_of_mem_replicate ha]
    simpa using hw

/-- A whole same-instant burst expires together once the window has passed. -/
theorem filter_replicate_expired (w j t0 : Nat) :
    (List.replicate j t0).filter (fun t => t0 + w - t < w) = [] :=
  List.filter_eq_nil_iff.mpr fun a ha => by
    rw [List.eq_of_mem_replicate ha]
    simp

/-- Below the limit, an acquisition at the burst instant is admitted
immediately and just records its timestamp. -/
theorem acquire_immediate (m w j t0 : Nat) (hj : j < m) (hw : 0 < w) :
    RateLimiterState.acquire ⟨m, w, List.replicate j t0⟩ t0 =
      (t0, ⟨m, w, List.replicate (j + 1) t0⟩) := by
  unfold RateLimiterState.acquire
  simp only [List.length_replicate, acquireGo, filter_replicate_window w j t0 hw]
  rw [if_neg (by omega), ← List.replicate_succ']

/-- At the limit, an acquisition at the burst instant waits out the whole
window, after which every burst timestamp has expired, and is admitted at
`t0 + windowMs`. -/
theorem acquire_blocked (m w t0 : Nat) (hm : 0 < m) (hw : 0 < w) :
    RateLimiterState.acquire ⟨m, w, List.replicate m t0⟩ t0 =
      (t0 + w, ⟨m, w, [t0 + w]⟩) := by
  obtain ⟨mm, rfl⟩ : ∃ mm, m = mm + 1 := ⟨m - 1, by omega⟩
  unfold RateLimiterState.acquire
  simp only [List.length_replicate, acquireGo, filter_replicate_window w _ t0 hw]
  rw [if_pos (by omega)]
  rw [List.replicate_succ]
  simp only [Nat.sub_self, Nat.sub_zero]
  rw [if_pos hw]
  rw [← List.replicate_succ]
  simp only [acquireGo, filter_replicate_expired w (mm + 1) t0]
  rw [if_neg (by simp)]
  simp

/-- The full trace of a same-instant burst that fills the window and then
overflows by one: the first `r` acquisitions (on top of `j` already recorded)
are admitted at `t0`, and the overflowing one at `t0 + w`. -/
theorem runAcquires_burst (m w t0 : Nat) (hm : 0 < m) (hw : 0 < w) :
    ∀ r j, j + r = m →
      runAcquires ⟨m, w, List.replicate j t0⟩ t0 (r + 1) =
        (List.replicate r t0 ++ [t0 + w], t0 + w, ⟨m, w, [t0 + w]⟩) := by
  intro r
  induction r with
  | zero =>
    intro j hj
    have hj' : j = m := by omega
    rw [hj']
    simp only [runAcquires, acquire_blocked m w t0 hm hw]
    simp
  | succ r ih =>
    intro j hj
    have h1 : runAcquires ⟨m, w, List.replicate j t0⟩ t0 (r + 1 + 1) =
        (t0 :: (runAcquires ⟨m, w, List.replicate (j + 1) t0⟩ t0 (r + 1)).1,
         (runAcquires ⟨m, w, List.replicate (j + 1) t0⟩ t0 (r + 1)).2) := by
      simp only [runAcquires, acquire_immediate m w j t0 (by omega) hw]
    rw [h1, ih (j + 1) (by omega)]
    simp [List.replicate_succ]

/-- Splitting a sequence of back-to-back acquisitions. -/
theorem runAcquires_split :
    ∀ (n1 : Nat) (s : RateLimiterState) (t : Nat) (n2 : Nat),
      runAcquires s t (n1 + n2) =
        ((runAcquires s t n1).1 ++
          (runAcquires (runAcquires s t n1).2.2 (runAcquires s t n1).2.1 n2).1,
         (runAcquires (runAcquires s t n1).2.2 (runAcquires s t n1).2.1 n2).2) := by
  intro n1
  induction n1 with
  | zero =>
    intro s t n2
    simp [runAcquires]
  | succ n1 ih =>
    intro s t n2
    rw [show n1 + 1 + n2 = (n1 + n2) + 1 by omega]
    simp only [runAcquires]
    rw [ih]
    simp

/-- The recorded list never grows beyond `maxRequests` (for a positive
limit): every exit path of the recursion either keeps a pruned sublist or
appends one element to a pruned list that was strictly under the limit. -/
theorem acquireGo_length_le (m w : Nat) (hm : 0 < m) :
    ∀ fuel now reqs, reqs.length ≤ m →
      (acquireGo m w fuel now reqs).2.length ≤ m := by
  intro fuel
  induction fuel with
  | zero =>
    intro now reqs hlen
    simpa [acquireGo] using le_trans (List.length_filter_le _ reqs) hlen
  | succ fuel ih =>
    intro now reqs hlen
    have hple : (reqs.filter fun t => now - t < w).length ≤ reqs.length :=
      List.length_filter_le _ reqs
    by_cases hlim : m ≤ (reqs.filter fun t => now - t < w).length
    · cases hpr : reqs.filter fun t => now - t < w with
      | nil =>
        simp only [acquireGo, hpr] at hlim ⊢
        rw [if_pos hlim]
        simpa using hm
      | cons oldest rest =>
        have hmem : oldest ∈ reqs.filter fun t => now - t < w := by
          rw [hpr]; exact List.mem_cons_self oldest rest
        have hold : now - oldest < w := by
          have := (List.mem_filter.mp hmem).2
          simpa using this
        have hwait : 0 < w - (now - oldest) := Nat.sub_pos_of_lt hold
        simp only [acquireGo, hpr] at hlim ⊢
        rw [if_pos hlim, if_pos hwait]
        exact ih _ (oldest :: rest) (by rw [← hpr]; exact le_trans hple hlen)
    · simp only [acquireGo]
      rw [if_neg hlim]
      simp only [List.length_append, List.length_singleton]
      omega

/-- C5: a same-instant burst of `maxRequests + k` acquisitions (`k > 0`)
against a fresh limiter has its first acquisition admitted at the burst
instant and its `(maxRequests+1)`-th admitted no earlier than one full window
after the first; and an acquisition never leaves more than `maxRequests`
recorded timestamps inside any trailing window. -/
theorem rateLimiter_burst_window (m w k t0 : Nat) (hm : 0 < m) (hw : 0 < w)
    (hk : 0 < k) :
    (runAcquires (RateLimiterState.create m w) t0 (m + k)).1.getD 0 0 = t0 ∧
    t0 + w ≤ (runAcquires (RateLimiterState.create m w) t0 (m + k)).1.getD m 0 ∧
    (∀ (s : RateLimiterState) (now : Nat),
      s.maxRequests = m → s.windowMs = w → s.requests.length ≤ m →
      (s.acquire now).2.requests.length ≤ m ∧
      ∀ T, ((s.acquire now).2.requests.filter fun x => T - x < w).length ≤ m) := by
  obtain ⟨k', rfl⟩ : ∃ k', k = k' + 1 := ⟨k - 1, by omega⟩
  have hsplit := runAcquires_split (m + 1) (RateLimiterState.create m w) t0 k'
  have hburst := runAcquires_burst m w t0 hm hw m 0 (by omega)
  have hcreate : RateLimiterState.create m w =
      ⟨m, w, List.replicate 0 t0⟩ := rfl
  have hfirst : (runAcquires (RateLimiterState.create m w) t0 (m + (k' + 1))).1 =
      (List.replicate m t0 ++ [t0 + w]) ++
        (runAcquires ⟨m, w, [t0 + w]⟩ (t0 + w) k').1 := by
    rw [show m + (k' + 1) = (m + 1) + k' by omega, hsplit]
    rw [hcreate, hburst]
  refine ⟨?_, ?_, ?_⟩
  · rw [hfirst]
    obtain ⟨mm, rfl⟩ : ∃ mm, m = mm + 1 := ⟨m - 1, by omega⟩
    simp [List.replicate_succ]
  · rw [hfirst, List.append_assoc,
      List.getD_append_right _ _ _ _ (by simp),
      List.length_replicate, Nat.sub_self]
    simp
  · intro s now hsm hsw hslen
    have hlen : ((s.acquire now).2.requests).length ≤ m := by
      unfold RateLimiterState.acquire
      rw [hsm, hsw]
      exact acquireGo_length_le m w hm (s.requests.length + 1) now s.requests hslen
    exact ⟨hlen, fun T => le_trans (List.length_filter_le _ _) hlen⟩

/-- Witness for C5 with `maxRequests = 2`, `windowMs = 1000`, a burst of 3 at
`t0 = 5`: the first admission is at 5, the third no earlier than 1005, and the
recorded list stays within the limit. -/
theorem rateLimiter_burst_window_witness :
    (runAcquires (RateLimiterState.create 2 1000) 5 (2 + 1)).1.getD 0 0 = 5 ∧
    5 + 1000 ≤ (runAcquires (RateLimiterState.create 2 1000) 5 (2 + 1)).1.getD 2 0 ∧
    ((RateLimiterState.create 2 1000).acquire 5).2.requests.length ≤ 2 :=
  ⟨(rateLimiter_burst_window 2 1000 1 5 (by decide) (by decide) (by decide)).1,
   (rateLimiter_burst_window 2 1000 1 5 (by decide) (by decide) (by decide)).2.1,
   ((rateLimiter_burst_window 2 1000 1 5 (by decide) (by decide) (by decide)).2.2
      (RateLimiterState.create 2 1000) 5 rfl rfl (by decide)).1⟩

/-! ### C2: the all-or-nothing results invariant -/

/-- Fallback value for list indexing into result lists. -/
def dummyResult : PostResult :=
  { platform := .twitter, postId := "", success := false, timestamp := 0 }

/-- Every adapter registered by `initializeAdapters` is stored under its own
platform key, because each `switch` case constructs the adapter class whose
`platform` field matches the case. -/
theorem initializeAdapters_wellKeyed
    (configs : List (PlatformConfig × (PostContent → AdapterOutcome))) :
    ∀ p a, initializeAdapters configs p = some a → a.platform = p := by
  have hstep : ∀ (l : List (PlatformConfig × (PostContent → AdapterOutcome)))
      (m : AdapterMap), (∀ p a, m p = some a → a.platform = p) →
      ∀ p a,
        (l.foldl (fun m cb =>
          if cb.1.enabled then m.set cb.1.platform (mkAdapter cb.1 cb.2) else m) m)
            p = some a →
        a.platform = p := by
    intro l
    induction l with
    | nil => intro m hm; simpa using hm
    | cons cb rest ih =>
      intro m hm
      simp only [List.foldl_cons]
      apply ih
      by_cases he : cb.1.enabled
      · rw [if_pos he]
        intro p a hpa
        unfold AdapterMap.set at hpa
        by_cases hpq : p = cb.1.platform
        · rw [if_pos hpq] at hpa
          injection hpa with hpa
          rw [← hpa, hpq]
          rfl
        · rw [if_neg hpq] at hpa
          exact hm p a hpa
      · rw [if_neg he]
        exact hm
  intro p a
  exact hstep configs AdapterMap.empty
    (by intro p a h; exact absurd h (by simp [AdapterMap.empty])) p a

/-- `postToAll` produces exactly one result per requested platform, in request
order, whenever the adapter map is keyed consistently. -/
theorem postToAll_length_platform (adapters : AdapterMap)
    (hwk : ∀ p a, adapters p = some a → a.platform = p)
    (content : PostContent) (now : Nat) (targets : List Platform) :
    (postToAll adapters content now targets).length = targets.length ∧
    ∀ i, i < targets.length →
      ((postToAll adapters content now targets).getD i dummyResult).platform =
        targets.getD i Platform.twitter := by
  constructor
  · simp [postToAll]
  · intro i hi
    rw [List.getD_eq_getElem _ _ (by simpa [postToAll] using hi),
      List.getD_eq_getElem _ _ hi]
    simp only [postToAll, List.getElem_map]
    cases had : adapters targets[i] with
    | none => simp [had]
    | some a =>
      simp only [had, PlatformAdapter.post]
      exact hwk _ a had

/-- The stores reachable through the client operations: an empty store,
scheduling, executing a due job whose dispatch is the real `postToAll` fan-out
(or a dispatch that throws), and cancelling. -/
inductive ReachableStore : Store → Prop where
  | empty : ReachableStore Store.empty
  | schedule (s : Store) (newId : String) (content : PostContent)
      (platforms : List Platform) (scheduledAt now : Nat) :
      ReachableStore s →
      ReachableStore (schedulePostClient s newId content platforms scheduledAt now).2
  | execute (s : Store) (id : String)
      (configs : List (PlatformConfig × (PostContent → AdapterOutcome)))
      (dispatchNow now : Nat) :
      ReachableStore s →
      ReachableStore (executeScheduledPostClient s id
        (fun post => .ok (postToAll (initializeAdapters configs) post.content
          dispatchNow post.platforms)) now).2
  | executeFault (s : Store) (id e : String) (now : Nat) :
      ReachableStore s →
      ReachableStore (executeScheduledPostClient s id (fun _ => .error e) now).2
  | cancel (s : Store) (id : String) (now : Nat) :
      ReachableStore s →
      ReachableStore (cancelScheduledPostClient s id now).2

/-- The results field of every stored job is either absent or a full,
order-aligned list: one result per element of the job's platform list, the
i-th result stamped with the i-th requested platform; while pending or
cancelled it is absent. -/
def ResultsInvariant (store : Store) : Prop :=
  ∀ id post, store id = some post →
    ((post.status = Status.pending ∨ post.status = Status.cancelled) →
      post.results = none) ∧
    ∀ rs, post.results = some rs →
      rs.length = post.platforms.length ∧
      ∀ i, i < post.platforms.length →
        (rs.getD i dummyResult).platform = post.platforms.getD i Platform.twitter

/-- C2: in every reachable store, a job's results are all-or-nothing — absent
(in particular while pending or cancelled), or exactly one result per element
of the job's target list in the same order; a partially filled results list is
never observable. -/
theorem reachable_results_all_or_nothing (store : Store)
    (h : ReachableStore store) : ResultsInvariant store := by
  induction h with
  | empty =>
    intro id post hpost
    exact absurd hpost (by simp [Store.empty])
  | schedule s newId content platforms scheduledAt now hs ih =>
    intro id post hpost
    simp only [schedulePostClient, Store.set] at hpost
    by_cases hid : id = newId
    · rw [if_pos hid] at hpost
      injection hpost with hpost
      rw [← hpost]
      exact ⟨fun _ => rfl, fun rs hrs => Option.noConfusion hrs⟩
    · rw [if_neg hid] at hpost
      exact ih id post hpost
  | execute s id0 configs dispatchNow now hs ih =>
    have hpt := postToAll_length_platform (initializeAdapters configs)
      (initializeAdapters_wellKeyed configs)
    intro id post hpost
    cases hs0 : s id0 with
    | none =>
      simp only [executeScheduledPostClient, hs0] at hpost
      exact ih id post hpost
    | some post0 =>
      by_cases hp : post0.status = Status.pending
      · simp only [executeScheduledPostClient, hs0, hp, ne_eq, not_true, Store.set,
          reduceIte] at hpost
        by_cases hid : id = id0
        · rw [if_pos hid] at hpost
          injection hpost with hpost
          rw [← hpost]
          constructor
          · intro hstat
            exfalso
            rcases hstat with hstat | hstat <;>
              { by_cases hall :
                  (postToAll (initializeAdapters configs) post0.content
                    dispatchNow post0.platforms).all (fun r => r.success) = true <;>
                  simp [hall] at hstat }
          · intro rs hrs
            injection hrs with hrs
            rw [← hrs]
            exact ⟨(hpt post0.content dispatchNow post0.platforms).1,
              (hpt post0.content dispatchNow post0.platforms).2⟩
        · rw [if_neg hid] at hpost
          exact ih id post hpost
      · simp only [executeScheduledPostClient, hs0, ne_eq, hp,
          not_false_eq_true, if_pos] at hpost
        exact ih id post hpost
  | executeFault s id0 e now hs ih =>
    intro id post hpost
    cases hs0 : s id0 with
    | none =>
      simp only [executeScheduledPostClient, hs0] at hpost
      exact ih id post hpost
    | some post0 =>
      by_cases hp : post0.status = Status.pending
      · simp only [executeScheduledPostClient, hs0, hp, ne_eq, not_true, Store.set,
          reduceIte] at hpost
        by_cases hid : id = id0
        · rw [if_pos hid] at hpost
          injection hpost with hpost
          rw [← hpost]
          constructor
          · intro hstat
            exact absurd hstat (by simp)
          · intro rs hrs
            exact (ih id0 post0 hs0).2 rs hrs
        · rw [if_neg hid] at hpost
          exact ih id post hpost
      · simp only [executeScheduledPostClient, hs0, ne_eq, hp,
          not_false_eq_true, if_pos] at hpost
        exact ih id post hpost
  | cancel s id0 now hs ih =>
    intro id post hpost
    cases hs0 : s id0 with
    | none =>
      simp only [cancelScheduledPostClient, hs0] at hpost
      exact ih id post hpost
    | some post0 =>
      by_cases hp : post0.status = Status.pending
      · simp only [cancelScheduledPostClient, hs0, hp, ne_eq, not_true, Store.set,
          reduceIte] at hpost
        by_cases hid : id = id0
        · rw [if_pos hid] at hpost
          injection hpost with hpost
          rw [← hpost]
          have hres0 : post0.results = none := (ih id0 post0 hs0).1 (Or.inl hp)
          constructor
          · intro _
            exact hres0
          · intro rs hrs
            rw [hres0] at hrs
            exact Option.noConfusion hrs
        · rw [if_neg hid] at hpost
          exact ih id post hpost
      · simp only [cancelScheduledPostClient, hs0, ne_eq, hp,
          not_false_eq_true, if_pos] at hpost
        exact ih id post hpost

/-- Witness for C2: a freshly scheduled (pending) job in a reachable store has
absent results. -/
theorem reachable_results_all_or_nothing_witness :
    (schedulePostClient Store.empty "p1" exContent [Platform.twitter] 50 10).1.results
      = none :=
  (reachable_results_all_or_nothing
      (schedulePostClient Store.empty "p1" exContent [Platform.twitter] 50 10).2
      (ReachableStore.schedule Store.empty "p1" exContent [Platform.twitter] 50 10
        ReachableStore.empty)
    "p1" (schedulePostClient Store.empty "p1" exContent [Platform.twitter] 50 10).1
    (by decide)).1 (Or.inl rfl)

end Crosspost
